import Mathlib

/-!
Shallow embedding of the VEU/UIO hardware-access layer of gst-sh-mobile
(`src/gstshioutils.c`): the scale/crop calculator `do_scale`, the register
state effect of `do_scale` and `setup_veu`, the UIO device locator
`locate_uio_device`, and the region mapper `setup_uio_map`.

Machine integers: `gint`/`gulong` are 32-bit on the target (SuperH).
Sizes are modelled as `Nat` (exact arithmetic, matching defined C `int`
behaviour on non-negative values); `gulong` register quantities are
reduced `% 2 ^ 32` exactly where the C unsigned arithmetic can wrap
(the `frac -= 8` decrement and every value stored by `write_reg`).
-/

namespace GstShIo

/-! ### Register offsets (`#define` block of gstshioutils.c) -/

def VESTR : Nat := 0x00
def VESWR : Nat := 0x10
def VESSR : Nat := 0x14
def VSAYR : Nat := 0x18
def VSACR : Nat := 0x1c
def VBSSR : Nat := 0x20
def VEDWR : Nat := 0x30
def VDAYR : Nat := 0x34
def VDACR : Nat := 0x38
def VTRCR : Nat := 0x50
def VRFCR : Nat := 0x54
def VRFSR : Nat := 0x58
def VSWPR : Nat := 0x94
def VEIER : Nat := 0xa0
def VEVTR : Nat := 0xa4
def VBSRR : Nat := 0xb4
def VMCR00 : Nat := 0x200
def VMCR01 : Nat := 0x204
def VMCR02 : Nat := 0x208
def VMCR10 : Nat := 0x20c
def VMCR11 : Nat := 0x210
def VMCR12 : Nat := 0x214
def VMCR20 : Nat := 0x218
def VMCR21 : Nat := 0x21c
def VMCR22 : Nat := 0x220
def VCOFFR : Nat := 0x224
def VCBR : Nat := 0x228

/-! ### Scale/crop calculator: the pure `(mant, frac, rep)` computation of
`do_scale` (gstshioutils.c lines 250-302). -/

/-- Result triple of the fixed-point computation inside `do_scale`. -/
structure ScaleMFR where
  mant : Nat
  frac : Nat
  rep : Nat
  deriving DecidableEq, Repr

/-- The `switch (frac)` statement of `do_scale`: repeat count selected by
the masked fraction (0x800 → 1, 0x400 → 3, 0x200 → 7, otherwise 0). -/
def repOf (frac : Nat) : Nat :=
  if frac = 0x800 then 1 else if frac = 0x400 then 3 else if frac = 0x200 then 7 else 0

/-- The "VEU2H special upscale" block of `do_scale` (lines 263-287):
`fixpoint = (4096 * size_in) / size_out`, mantissa and fraction split,
fraction masked by `&= ~0x07`, repeat from the `switch`. -/
def upscaleMFR (size_in size_out : Nat) : ScaleMFR :=
  let fixpoint := 4096 * size_in / size_out
  let mant := fixpoint / 4096
  let frac := (fixpoint - mant * 4096) &&& 0xFFFFFFF8
  ⟨mant, frac, repOf frac⟩

/-- The general fixed-point path of `do_scale` (lines 289-301):
`fixpoint = (4096 * (size_in - 1)) / (size_out + 1)`; when the fraction has
low bits set it is masked and then adjusted by the `gulong` (unsigned
32-bit, hence possibly wrapping) `frac -= 8` for upscale or `frac += 8`
for downscale. -/
def generalMFR (size_in size_out : Nat) : ScaleMFR :=
  let fixpoint := 4096 * (size_in - 1) / (size_out + 1)
  let mant := fixpoint / 4096
  let frac := fixpoint - mant * 4096
  if frac &&& 0x07 ≠ 0 then
    if size_out > size_in then
      ⟨mant, ((frac &&& 0xFFFFFFF8) + (2 ^ 32 - 8)) % 2 ^ 32, 0⟩
    else
      ⟨mant, (frac &&& 0xFFFFFFF8) + 8, 0⟩
  else ⟨mant, frac, 0⟩

/-- The complete `do { ... } while (0)` computation of `do_scale`
(lines 252-302): identity branch, special-upscale branch taken when its
repeat count is non-zero, otherwise the general path. -/
def doScaleCompute (size_in size_out crop_out : Nat) : ScaleMFR :=
  if size_in = size_out then
    ⟨if crop_out ≠ size_out then 1 else 0, 0, 0⟩
  else if size_out > size_in ∧ (upscaleMFR size_in size_out).rep ≠ 0 then
    upscaleMFR size_in size_out
  else
    generalMFR size_in size_out

/-! ### Register access and the state effect of `do_scale` / `setup_veu`

`read_reg`/`write_reg` treat the mapped region as an array of 32-bit
words (`reg[reg_offs / 4]`).  The state is the word array; a chronological
trace of `(offset, stored value)` pairs records every `write_reg` call. -/

/-- A mapped register region: word-indexed 32-bit contents plus the
chronological trace of `write_reg` calls `(byte offset, stored value)`. -/
structure VeuRegs where
  regs : Nat → Nat
  trace : List (Nat × Nat)

/-- `read_reg`: `reg[reg_offs / 4]`. -/
def readReg (w : VeuRegs) (reg_offs : Nat) : Nat := w.regs (reg_offs / 4)

/-- `write_reg`: `reg[reg_offs / 4] = value`; the stored value is the
`gulong` truncation of `value`. -/
def writeReg (w : VeuRegs) (value reg_offs : Nat) : VeuRegs :=
  { regs := fun i => if i = reg_offs / 4 then value % 2 ^ 32 else w.regs i,
    trace := w.trace ++ [(reg_offs, value % 2 ^ 32)] }

/-- `do_scale` (gstshioutils.c lines 245-333): computes the
mantissa/fraction/repeat triple, then read-modify-writes the resize-scale
register `VRFCR` and the resize-clip register `VRFSR` — low 16-bit
halfword for `vertical = 0`, high halfword (`<< 16`) for `vertical = 1` —
and returns `(((size_in * crop_out) / size_out) + 0x03) & ~0x03`. -/
def doScale (w : VeuRegs) (vertical : Bool) (size_in size_out crop_out : Nat) :
    VeuRegs × Nat :=
  let m := doScaleCompute size_in size_out crop_out
  let value := readReg w VRFCR
  let value :=
    if vertical then (value &&& 0xFFFF) ||| (((m.mant <<< 12) ||| m.frac) <<< 16)
    else (value &&& 0xFFFF0000) ||| ((m.mant <<< 12) ||| m.frac)
  let w := writeReg w value VRFCR
  let value2 := readReg w VRFSR
  let value2 :=
    if vertical then (value2 &&& 0xFFFF) ||| (((m.rep <<< 12) ||| crop_out) <<< 16)
    else (value2 &&& 0xFFFF0000) ||| ((m.rep <<< 12) ||| crop_out)
  let w := writeReg w value2 VRFSR
  (w, (size_in * crop_out / size_out + 0x03) &&& 0xFFFFFFFC)

/-! ### `setup_veu` (gstshioutils.c lines 335-396) -/

/-- Source stride alignment: `src_stride = (src_w+15) & ~15`. -/
def srcStride (src_w : Nat) : Nat := (src_w + 15) &&& 0xFFFFFFF0

/-- Output-position alignment: `pos_x = pos_x & ~0x03`. -/
def alignPosX (pos_x : Nat) : Nat := pos_x &&& 0xFFFFFFFC

/-- Cropped output extent: starts from `dst_w` and is clamped when
`dst_w + pos_x` exceeds `dst_max_w` (same code shape for the height
axis with `pos_y`/`dst_max_h`). -/
def croppedExtent (dst_w pos_x dst_max_w : Nat) : Nat :=
  if dst_w + pos_x > dst_max_w then dst_max_w - pos_x else dst_w

/-- Destination address adjustment:
`dst_addr += pos_x * (bpp / 8); dst_addr += pos_y * dst_stride;`. -/
def adjustedDstAddr (dst_addr pos_x pos_y dst_stride bpp : Nat) : Nat :=
  dst_addr + pos_x * (bpp / 8) + pos_y * dst_stride

/-- `setup_veu`: fails (returns `none`, modelling `FALSE`) when the device
name is not `VEU2H`; otherwise aligns, crops, adjusts the destination
address, runs `do_scale` on both axes, and programs the register block
exactly as the source does. -/
def setupVeu (w : VeuRegs) (devName : String)
    (src_w src_h dst_w dst_h dst_stride pos_x pos_y dst_max_w dst_max_h
      dst_addr bpp : Nat) : Option VeuRegs :=
  if devName ≠ "VEU2H" then none
  else
    let src_stride := srcStride src_w
    let pos_x := alignPosX pos_x
    let cropped_w := croppedExtent dst_w pos_x dst_max_w
    let cropped_h := croppedExtent dst_h pos_y dst_max_h
    let dst_addr := adjustedDstAddr dst_addr pos_x pos_y dst_stride bpp
    let r1 := doScale w false src_w dst_w cropped_w
    let r2 := doScale r1.1 true src_h dst_h cropped_h
    let src_w := r1.2
    let src_h := r2.2
    let w := r2.1
    let w := writeReg w src_stride VESWR
    let w := writeReg w (src_w ||| (src_h <<< 16)) VESSR
    let w := writeReg w 0 VBSSR
    let w := writeReg w dst_stride VEDWR
    let w := writeReg w dst_addr VDAYR
    let w := writeReg w 0 VDACR
    let w := writeReg w 0x67 VSWPR
    let w := writeReg w ((6 <<< 16) ||| 2 ||| 4) VTRCR
    let w := writeReg w 0x0cc5 VMCR00
    let w := writeReg w 0x0950 VMCR01
    let w := writeReg w 0x0000 VMCR02
    let w := writeReg w 0x397f VMCR10
    let w := writeReg w 0x0950 VMCR11
    let w := writeReg w 0x3ccd VMCR12
    let w := writeReg w 0x0000 VMCR20
    let w := writeReg w 0x0950 VMCR21
    let w := writeReg w 0x1023 VMCR22
    let w := writeReg w 0x00800010 VCOFFR
    let w := writeReg w 1 VEIER
    some w

/-! ### Device locator `locate_uio_device` (gstshioutils.c lines 149-180)

The sysfs environment is the list of contents of
`/sys/class/uio/uio{N}/name` for `N = 0, 1, ...`: reads succeed for every
index below the list length and the first out-of-range read fails (the
loop terminator `fgets_with_openclose(...) < 0`).  `openable N` tells
whether `open("/dev/uio{N}")` succeeds. -/

/-- `snprintf(fname, ..., "/sys/class/uio/uio%d/name", uio_id)`. -/
def uioNameFile (n : Nat) : String := "/sys/class/uio/uio" ++ toString n ++ "/name"

/-- `snprintf(buf, ..., "/dev/uio%d", uio_id)`. -/
def uioDevFile (n : Nat) : String := "/dev/uio" ++ toString n

/-- Writing `'\0'` at character index `k` of a C string buffer: the
string is truncated to its first `k` characters. -/
def truncAt (s : String) (k : Nat) : String := ⟨s.data.take k⟩

/-- `strchr(buf, '\n')` + `*tmp = '\0'`: cut the buffer at the first
newline, if any. -/
def stripNewline (s : String) : String := ⟨s.data.takeWhile (fun c => c ≠ '\n')⟩

/-- Populated `uio_device`: the duplicated name, the sysfs prefix
(`fname` with the trailing `/name` cut off), and the `/dev` node path
whose `open` produced the descriptor. -/
structure UioDev where
  name : String
  path : String
  devPath : String
  deriving DecidableEq, Repr

/-- The two distinct `return -1` sites of `locate_uio_device`: the scan
loop's sysfs read failing, and `open("/dev/uio%d")` failing. -/
inductive LocateErr where
  | DeviceNotFound
  | OpenFailed
  deriving DecidableEq, Repr

/-- The `uio_device` fields populated on a match at instance `uio_id`
with name-file contents `buf` (gstshioutils.c lines 165-173): the
newline-stripped name, `fname` truncated 5 characters before its end
(`udp->path[strlen(udp->path) - 5] = '\0'`), and the `/dev/uio{N}` node. -/
def mkUioDev (uio_id : Nat) (buf : String) : UioDev :=
  { name := stripNewline buf,
    path := truncAt (uioNameFile uio_id) ((uioNameFile uio_id).length - 5),
    devPath := uioDevFile uio_id }

/-- The scan loop of `locate_uio_device` from instance `uio_id` on:
read `uio{N}/name`; a failed read returns `-1`; the loop continues while
`strncmp(name, buf, strlen(name))` is non-zero, i.e. until `name` is a
character prefix of the file contents. -/
def locateUioAux (name : String) (openable : Nat → Bool) :
    List String → Nat → Except LocateErr UioDev
  | [], _ => .error .DeviceNotFound
  | buf :: rest, uio_id =>
    if List.isPrefixOf name.data buf.data then
      if openable uio_id then .ok (mkUioDev uio_id buf) else .error .OpenFailed
    else
      locateUioAux name openable rest (uio_id + 1)

/-- `locate_uio_device(name, udp)`: scan from `uio0` upwards. -/
def locateUioDevice (name : String) (files : List String) (openable : Nat → Bool) :
    Except LocateErr UioDev :=
  locateUioAux name openable files 0

/-! ### Region mapper `setup_uio_map` (gstshioutils.c lines 182-205) -/

/-- Value of a digit character under the given base, `none` when the
character does not belong to the base (where `strtoul` stops). -/
def digitVal (base : Nat) (c : Char) : Option Nat :=
  let v :=
    if '0' ≤ c ∧ c ≤ '9' then some (c.toNat - '0'.toNat)
    else if 'a' ≤ c ∧ c ≤ 'f' then some (c.toNat - 'a'.toNat + 10)
    else if 'A' ≤ c ∧ c ≤ 'F' then some (c.toNat - 'A'.toNat + 10)
    else none
  match v with
  | some d => if d < base then some d else none
  | none => none

/-- Maximal-run digit accumulation of `strtoul`. -/
def parseDigits (base : Nat) : List Char → Nat → Nat
  | [], acc => acc
  | c :: cs, acc =>
    match digitVal base c with
    | some d => parseDigits base cs (acc * base + d)
    | none => acc

/-- C `isspace` characters skipped by `strtoul`. -/
def cIsSpace (c : Char) : Bool :=
  c = ' ' ∨ c = '\t' ∨ c = '\n' ∨ c = '\x0b' ∨ c = '\x0c' ∨ c = '\r'

/-- `strtoul(buf, NULL, 0)` on the non-negative inputs delivered by
sysfs: skip leading whitespace, then base selected by the prefix —
`0x`/`0X` hexadecimal, a bare leading `0` octal, otherwise decimal —
followed by a maximal digit run (trailing junk ignored).
Sign handling and the `ULONG_MAX` overflow clamp of the C library
function are outside the model. -/
def strtoul0 (s : String) : Nat :=
  match s.data.dropWhile (fun c => cIsSpace c) with
  | '0' :: 'x' :: rest => parseDigits 16 rest 0
  | '0' :: 'X' :: rest => parseDigits 16 rest 0
  | '0' :: rest => parseDigits 8 rest 0
  | rest => parseDigits 10 rest 0

/-- Populated `uio_map`: kernel-reported base address and byte size, and
the mapped pointer (modelled as the address returned by the mmap oracle). -/
structure UioMapped where
  address : Nat
  size : Nat
  iomem : Nat
  deriving DecidableEq, Repr

/-- Environment of `setup_uio_map`: sysfs file reads (`none` = open
failure), an mmap oracle taking the requested length and file offset
(`none` = `MAP_FAILED`; the call is always `PROT_READ|PROT_WRITE`,
`MAP_SHARED` on the device descriptor), and `getpagesize()`. -/
structure UioEnv where
  readFile : String → Option String
  mmap : Nat → Nat → Option Nat
  pageSize : Nat

/-- `setup_uio_map(udp, nr, ump)`: read `{path}/maps/map{nr}/addr` and
`.../size` (each failing when the open fails or the line is empty —
`fgets_with_openclose(...) <= 0`), parse both with `strtoul(buf, NULL, 0)`,
then `mmap(0, size, ..., nr * getpagesize())`. -/
def setupUioMap (env : UioEnv) (path : String) (nr : Nat) : Option UioMapped :=
  match env.readFile (path ++ "/maps/map" ++ toString nr ++ "/addr") with
  | none => none
  | some buf =>
    if buf.length = 0 then none
    else
      let address := strtoul0 buf
      match env.readFile (path ++ "/maps/map" ++ toString nr ++ "/size") with
      | none => none
      | some buf2 =>
        if buf2.length = 0 then none
        else
          let size := strtoul0 buf2
          match env.mmap size (nr * env.pageSize) with
          | none => none
          | some p => some { address := address, size := size, iomem := p }

/-! ### Bit-manipulation toolkit

Arithmetic readings of the C masking idioms (`& ~0x07`, `& ~0x03`,
`& ~15`, `& 0xffff`, `& 0xffff0000`) used by `do_scale` and `setup_veu`. -/

theorem and_low3_eq_mod (n : Nat) : n &&& 0x07 = n % 8 := by
  have h : (0x07 : Nat) = 2 ^ 3 - 1 := by norm_num
  rw [h, Nat.and_pow_two_sub_one_eq_mod]

theorem and_mask3_eq (n : Nat) (h : n < 2 ^ 32) : n &&& 0xFFFFFFF8 = n / 8 * 8 := by
  have hm : (0xFFFFFFF8 : Nat) = (2 ^ 29 - 1) <<< 3 := by decide
  have hr : n / 8 * 8 = (n >>> 3) <<< 3 := by
    rw [Nat.shiftRight_eq_div_pow, Nat.shiftLeft_eq]
  rw [hm, hr]
  apply Nat.eq_of_testBit_eq
  intro i
  simp only [Nat.testBit_and, Nat.testBit_shiftLeft, Nat.testBit_two_pow_sub_one,
    Nat.testBit_shiftRight]
  by_cases h3 : 3 ≤ i
  · by_cases h32 : i < 32
    · have : 3 + (i - 3) = i := by omega
      simp [h3, this, show i - 3 < 29 by omega]
    · have hb : n.testBit i = false := Nat.testBit_lt_two_pow (by
        calc n < 2 ^ 32 := h
        _ ≤ 2 ^ i := Nat.pow_le_pow_right (by norm_num) (by omega))
      have hb2 : n.testBit (3 + (i - 3)) = false := by
        rw [show 3 + (i - 3) = i by omega]; exact hb
      simp [hb, hb2, show ¬(i - 3 < 29) by omega]
  · simp [show ¬(i ≥ 3) by omega]

theorem and_mask2_eq (n : Nat) (h : n < 2 ^ 32) : n &&& 0xFFFFFFFC = n / 4 * 4 := by
  have hm : (0xFFFFFFFC : Nat) = (2 ^ 30 - 1) <<< 2 := by decide
  have hr : n / 4 * 4 = (n >>> 2) <<< 2 := by
    rw [Nat.shiftRight_eq_div_pow, Nat.shiftLeft_eq]
  rw [hm, hr]
  apply Nat.eq_of_testBit_eq
  intro i
  simp only [Nat.testBit_and, Nat.testBit_shiftLeft, Nat.testBit_two_pow_sub_one,
    Nat.testBit_shiftRight]
  by_cases h2 : 2 ≤ i
  · by_cases h32 : i < 32
    · have : 2 + (i - 2) = i := by omega
      simp [h2, this, show i - 2 < 30 by omega]
    · have hb : n.testBit i = false := Nat.testBit_lt_two_pow (by
        calc n < 2 ^ 32 := h
        _ ≤ 2 ^ i := Nat.pow_le_pow_right (by norm_num) (by omega))
      have hb2 : n.testBit (2 + (i - 2)) = false := by
        rw [show 2 + (i - 2) = i by omega]; exact hb
      simp [hb, hb2, show ¬(i - 2 < 30) by omega]
  · simp [show ¬(i ≥ 2) by omega]

theorem and_low16_eq_mod (n : Nat) : n &&& 0xFFFF = n % 2 ^ 16 := by
  have h : (0xFFFF : Nat) = 2 ^ 16 - 1 := by norm_num
  rw [h, Nat.and_pow_two_sub_one_eq_mod]

theorem and_high16_eq (n : Nat) (h : n < 2 ^ 32) :
    n &&& 0xFFFF0000 = n / 2 ^ 16 * 2 ^ 16 := by
  have hm : (0xFFFF0000 : Nat) = (2 ^ 16 - 1) <<< 16 := by decide
  have hr : n / 2 ^ 16 * 2 ^ 16 = (n >>> 16) <<< 16 := by
    rw [Nat.shiftRight_eq_div_pow, Nat.shiftLeft_eq]
  rw [hm, hr]
  apply Nat.eq_of_testBit_eq
  intro i
  simp only [Nat.testBit_and, Nat.testBit_shiftLeft, Nat.testBit_two_pow_sub_one,
    Nat.testBit_shiftRight]
  by_cases h16 : 16 ≤ i
  · by_cases h32 : i < 32
    · have : 16 + (i - 16) = i := by omega
      simp [h16, this, show i - 16 < 16 by omega]
    · have hb : n.testBit i = false := Nat.testBit_lt_two_pow (by
        calc n < 2 ^ 32 := h
        _ ≤ 2 ^ i := Nat.pow_le_pow_right (by norm_num) (by omega))
      have hb2 : n.testBit (16 + (i - 16)) = false := by
        rw [show 16 + (i - 16) = i by omega]; exact hb
      simp [hb, hb2, show ¬(i - 16 < 16) by omega]
  · simp [show ¬(i ≥ 16) by omega]

theorem lor_mod_two_pow (a b k : Nat) :
    (a ||| b) % 2 ^ k = a % 2 ^ k ||| b % 2 ^ k := by
  apply Nat.eq_of_testBit_eq
  intro i
  simp only [Nat.testBit_mod_two_pow, Nat.testBit_or]
  by_cases hik : i < k <;> simp [hik]

theorem lor_div_two_pow (a b k : Nat) :
    (a ||| b) / 2 ^ k = a / 2 ^ k ||| b / 2 ^ k := by
  have h : ∀ x : Nat, x / 2 ^ k = x >>> k := fun x =>
    (Nat.shiftRight_eq_div_pow x k).symm
  rw [h, h, h]
  apply Nat.eq_of_testBit_eq
  intro i
  simp [Nat.testBit_shiftRight, Nat.testBit_or]

theorem dvd4_and_maskC (n : Nat) : 4 ∣ n &&& 0xFFFFFFFC := by
  apply Nat.dvd_of_mod_eq_zero
  have h : (4 : Nat) = 2 ^ 2 := by norm_num
  rw [h, ← Nat.and_pow_two_sub_one_eq_mod, Nat.and_assoc,
    show ((0xFFFFFFFC : Nat) &&& (2 ^ 2 - 1)) = 0 from by decide, Nat.and_zero]

theorem dvd16_and_maskF0 (n : Nat) : 16 ∣ n &&& 0xFFFFFFF0 := by
  apply Nat.dvd_of_mod_eq_zero
  have h : (16 : Nat) = 2 ^ 4 := by norm_num
  rw [h, ← Nat.and_pow_two_sub_one_eq_mod, Nat.and_assoc,
    show ((0xFFFFFFF0 : Nat) &&& (2 ^ 4 - 1)) = 0 from by decide, Nat.and_zero]

/-! ### Helper lemmas about the scale computation -/

theorem sub_div_mul_4096 (n : Nat) : n - n / 4096 * 4096 = n % 4096 := by
  have := Nat.div_add_mod n 4096
  omega

theorem doScaleCompute_of_ne (size_in size_out crop_out : Nat)
    (h : size_in ≠ size_out) :
    doScaleCompute size_in size_out crop_out =
      if size_out > size_in ∧ (upscaleMFR size_in size_out).rep ≠ 0 then
        upscaleMFR size_in size_out
      else generalMFR size_in size_out := by
  rw [doScaleCompute, if_neg h]

theorem upscaleMFR_frac_eq (size_in size_out : Nat) :
    (upscaleMFR size_in size_out).frac =
      4096 * size_in / size_out % 4096 / 8 * 8 := by
  show (4096 * size_in / size_out - 4096 * size_in / size_out / 4096 * 4096) &&&
      0xFFFFFFF8 = _
  rw [sub_div_mul_4096]
  exact and_mask3_eq _ (by
    have := Nat.mod_lt (4096 * size_in / size_out) (y := 4096) (by norm_num)
    omega)

theorem generalMFR_eq (size_in size_out : Nat) :
    generalMFR size_in size_out =
      if 4096 * (size_in - 1) / (size_out + 1) % 4096 % 8 ≠ 0 then
        if size_out > size_in then
          ⟨4096 * (size_in - 1) / (size_out + 1) / 4096,
            (4096 * (size_in - 1) / (size_out + 1) % 4096 / 8 * 8 + (2 ^ 32 - 8)) %
              2 ^ 32, 0⟩
        else
          ⟨4096 * (size_in - 1) / (size_out + 1) / 4096,
            4096 * (size_in - 1) / (size_out + 1) % 4096 / 8 * 8 + 8, 0⟩
      else
        ⟨4096 * (size_in - 1) / (size_out + 1) / 4096,
          4096 * (size_in - 1) / (size_out + 1) % 4096, 0⟩ := by
  have hlt : 4096 * (size_in - 1) / (size_out + 1) % 4096 < 2 ^ 32 := by
    have := Nat.mod_lt (4096 * (size_in - 1) / (size_out + 1)) (y := 4096)
      (by norm_num)
    omega
  rw [generalMFR]
  simp only [sub_div_mul_4096, and_low3_eq_mod, and_mask3_eq _ hlt,
    Nat.mod_mod_of_dvd _ (by norm_num : (8 : Nat) ∣ 4096)]

/-! ### Claim theorems -/

/-- C1: identity scale.  For every positive size `S`, `do_scale` with
`size_in = size_out = crop_out = S` computes mantissa 0, fraction 0,
repeat 0; and when `size_in == size_out` but `crop_out != size_out` it
computes mantissa 1, fraction 0, repeat 0. -/
theorem doScale_identity (S crop_out : Nat) (hS : 0 < S) :
    doScaleCompute S S S = ⟨0, 0, 0⟩ ∧
    (crop_out ≠ S → doScaleCompute S S crop_out = ⟨1, 0, 0⟩) := by
  refine ⟨by simp [doScaleCompute], fun h => ?_⟩
  simp [doScaleCompute, h]

/-- Witness for C1 at `S = 100`, `crop_out = 80`. -/
theorem doScale_identity_witness :
    0 < 100 ∧
    (GstShIo.doScaleCompute 100 100 100 = ⟨0, 0, 0⟩ ∧
      (80 ≠ 100 → GstShIo.doScaleCompute 100 100 80 = ⟨1, 0, 0⟩)) :=
  ⟨by decide, doScale_identity 100 80 (by decide)⟩

/-- C2: general fixed-point path.  For `size_in ≠ size_out` reaching the
general path, `do_scale` computes `fixpoint = 4096*(size_in-1)/(size_out+1)`,
mantissa `fixpoint / 4096`, fraction `fixpoint % 4096`; when the fraction's
low 3 bits are nonzero the final fraction is the masked fraction minus 8
(32-bit unsigned, wrapping subtraction, `frac -= 8`) for upscale and the
masked fraction plus 8 for downscale.  Instantiated at
`size_in = 722, size_out = 640` by the witness, the final fraction is 8
greater than pure truncation to a multiple of 8. -/
theorem doScale_general_path (size_in size_out crop_out : Nat)
    (h1 : 0 < size_in) (h2 : 0 < size_out) (hne : size_in ≠ size_out)
    (hgen : size_out > size_in → repOf (upscaleMFR size_in size_out).frac = 0) :
    (doScaleCompute size_in size_out crop_out).mant =
      4096 * (size_in - 1) / (size_out + 1) / 4096 ∧
    (doScaleCompute size_in size_out crop_out).rep = 0 ∧
    (4096 * (size_in - 1) / (size_out + 1) % 4096 % 8 = 0 →
      (doScaleCompute size_in size_out crop_out).frac =
        4096 * (size_in - 1) / (size_out + 1) % 4096) ∧
    (4096 * (size_in - 1) / (size_out + 1) % 4096 % 8 ≠ 0 →
      (doScaleCompute size_in size_out crop_out).frac =
        if size_out > size_in then
          (4096 * (size_in - 1) / (size_out + 1) % 4096 / 8 * 8 + (2 ^ 32 - 8)) %
            2 ^ 32
        else 4096 * (size_in - 1) / (size_out + 1) % 4096 / 8 * 8 + 8) := by
  have hup : ¬(size_out > size_in ∧ (upscaleMFR size_in size_out).rep ≠ 0) := by
    rintro ⟨ha, hb⟩
    exact hb (hgen ha)
  rw [doScaleCompute_of_ne _ _ _ hne, if_neg hup, generalMFR_eq]
  by_cases hfr : 4096 * (size_in - 1) / (size_out + 1) % 4096 % 8 = 0
  · simp [hfr]
  · rcases Nat.lt_or_ge size_in size_out with hlt | hge
    · simp [hfr, hlt]
    · simp [hfr, Nat.not_lt.mpr hge]

/-- Witness for C2 at `size_in = 722, size_out = 640, crop_out = 640`
(downscale): the final fraction 512 is the truncated fraction 504 plus 8. -/
theorem doScale_general_path_witness :
    0 < 722 ∧ 0 < 640 ∧ 722 ≠ 640 ∧
    ((GstShIo.doScaleCompute 722 640 640).mant =
      4096 * (722 - 1) / (640 + 1) / 4096 ∧
    (GstShIo.doScaleCompute 722 640 640).rep = 0 ∧
    (4096 * (722 - 1) / (640 + 1) % 4096 % 8 = 0 →
      (GstShIo.doScaleCompute 722 640 640).frac =
        4096 * (722 - 1) / (640 + 1) % 4096) ∧
    (4096 * (722 - 1) / (640 + 1) % 4096 % 8 ≠ 0 →
      (GstShIo.doScaleCompute 722 640 640).frac =
        if 640 > 722 then
          (4096 * (722 - 1) / (640 + 1) % 4096 / 8 * 8 + (2 ^ 32 - 8)) % 2 ^ 32
        else 4096 * (722 - 1) / (640 + 1) % 4096 / 8 * 8 + 8)) ∧
    (GstShIo.doScaleCompute 722 640 640).frac = 512 ∧
    4096 * (722 - 1) / (640 + 1) % 4096 / 8 * 8 = 504 :=
  ⟨by decide, by decide, by decide,
    doScale_general_path 722 640 640 (by decide) (by decide) (by decide)
      (fun h => absurd h (by decide)), by decide, by decide⟩

/-- C3: upscale special repeat cases.  For `size_out > size_in`,
`do_scale` computes `fixpoint = 4096*size_in/size_out`; when the fraction
masked to a multiple of 8 equals 0x800, 0x400 or 0x200 it sets repeat to
1, 3 or 7 respectively keeping that mantissa/fraction, otherwise it falls
through to the general path. -/
theorem doScale_upscale_repeat (size_in size_out crop_out : Nat)
    (h : size_in < size_out) :
    (upscaleMFR size_in size_out).mant = 4096 * size_in / size_out / 4096 ∧
    (upscaleMFR size_in size_out).frac =
      4096 * size_in / size_out % 4096 / 8 * 8 ∧
    ((upscaleMFR size_in size_out).frac = 0x800 →
      doScaleCompute size_in size_out crop_out =
        ⟨(upscaleMFR size_in size_out).mant, 0x800, 1⟩) ∧
    ((upscaleMFR size_in size_out).frac = 0x400 →
      doScaleCompute size_in size_out crop_out =
        ⟨(upscaleMFR size_in size_out).mant, 0x400, 3⟩) ∧
    ((upscaleMFR size_in size_out).frac = 0x200 →
      doScaleCompute size_in size_out crop_out =
        ⟨(upscaleMFR size_in size_out).mant, 0x200, 7⟩) ∧
    (repOf (upscaleMFR size_in size_out).frac = 0 →
      doScaleCompute size_in size_out crop_out = generalMFR size_in size_out) := by
  have hne : size_in ≠ size_out := Nat.ne_of_lt h
  have hrep : (upscaleMFR size_in size_out).rep =
      repOf (upscaleMFR size_in size_out).frac := rfl
  refine ⟨rfl, upscaleMFR_frac_eq size_in size_out, fun hf => ?_, fun hf => ?_,
    fun hf => ?_, fun hf => ?_⟩
  · rw [doScaleCompute_of_ne _ _ _ hne,
      if_pos ⟨h, by rw [hrep, hf]; decide⟩]
    show (⟨_, (upscaleMFR size_in size_out).frac,
      repOf (upscaleMFR size_in size_out).frac⟩ : ScaleMFR) = _
    rw [hf]
    simp [repOf, upscaleMFR]
  · rw [doScaleCompute_of_ne _ _ _ hne,
      if_pos ⟨h, by rw [hrep, hf]; decide⟩]
    show (⟨_, (upscaleMFR size_in size_out).frac,
      repOf (upscaleMFR size_in size_out).frac⟩ : ScaleMFR) = _
    rw [hf]
    simp [repOf, upscaleMFR]
  · rw [doScaleCompute_of_ne _ _ _ hne,
      if_pos ⟨h, by rw [hrep, hf]; decide⟩]
    show (⟨_, (upscaleMFR size_in size_out).frac,
      repOf (upscaleMFR size_in size_out).frac⟩ : ScaleMFR) = _
    rw [hf]
    simp [repOf, upscaleMFR]
  · rw [doScaleCompute_of_ne _ _ _ hne, if_neg (by rw [hrep, hf]; simp)]

/-- Witness for C3 at `size_in = 1, size_out = 2` (masked fraction 0x800,
repeat 1). -/
theorem doScale_upscale_repeat_witness :
    1 < 2 ∧
    ((GstShIo.upscaleMFR 1 2).mant = 4096 * 1 / 2 / 4096 ∧
    (GstShIo.upscaleMFR 1 2).frac = 4096 * 1 / 2 % 4096 / 8 * 8 ∧
    ((GstShIo.upscaleMFR 1 2).frac = 0x800 →
      GstShIo.doScaleCompute 1 2 2 = ⟨(GstShIo.upscaleMFR 1 2).mant, 0x800, 1⟩) ∧
    ((GstShIo.upscaleMFR 1 2).frac = 0x400 →
      GstShIo.doScaleCompute 1 2 2 = ⟨(GstShIo.upscaleMFR 1 2).mant, 0x400, 3⟩) ∧
    ((GstShIo.upscaleMFR 1 2).frac = 0x200 →
      GstShIo.doScaleCompute 1 2 2 = ⟨(GstShIo.upscaleMFR 1 2).mant, 0x200, 7⟩) ∧
    (GstShIo.repOf (GstShIo.upscaleMFR 1 2).frac = 0 →
      GstShIo.doScaleCompute 1 2 2 = GstShIo.generalMFR 1 2)) :=
  ⟨by decide, doScale_upscale_repeat 1 2 2 (by decide)⟩

/-! ### Helper lemmas for the register-state effect -/

theorem store_low16 (a x : Nat) :
    (((a &&& 0xFFFF) ||| (x <<< 16)) % 2 ^ 32) % 2 ^ 16 = a % 2 ^ 16 := by
  rw [Nat.mod_mod_of_dvd _ (pow_dvd_pow 2 (by norm_num : 16 ≤ 32)),
    lor_mod_two_pow, and_low16_eq_mod, Nat.mod_mod_of_dvd _ dvd_rfl,
    Nat.shiftLeft_eq, Nat.mul_mod_left, Nat.or_zero]

theorem store_high16 (a y : Nat) (ha : a < 2 ^ 32) (hy : y < 2 ^ 16) :
    (((a &&& 0xFFFF0000) ||| y) % 2 ^ 32) / 2 ^ 16 = a / 2 ^ 16 := by
  have h1 : a &&& 0xFFFF0000 < 2 ^ 32 := lt_of_le_of_lt Nat.and_le_left ha
  have hy32 : y < 2 ^ 32 := lt_trans hy (by norm_num)
  rw [Nat.mod_eq_of_lt (Nat.or_lt_two_pow h1 hy32), lor_div_two_pow,
    Nat.div_eq_of_lt hy, Nat.or_zero, and_high16_eq a ha,
    Nat.mul_div_cancel _ (by norm_num : 0 < 2 ^ 16)]

theorem doScale_regs (w : VeuRegs) (vert : Bool) (a b c : Nat) :
    (doScale w vert a b c).1.regs = fun i =>
      if i = VRFSR / 4 then
        (if vert then
          (w.regs (VRFSR / 4) &&& 0xFFFF) |||
            ((((doScaleCompute a b c).rep <<< 12) ||| c) <<< 16)
        else
          (w.regs (VRFSR / 4) &&& 0xFFFF0000) |||
            (((doScaleCompute a b c).rep <<< 12) ||| c)) % 2 ^ 32
      else if i = VRFCR / 4 then
        (if vert then
          (w.regs (VRFCR / 4) &&& 0xFFFF) |||
            ((((doScaleCompute a b c).mant <<< 12) |||
              (doScaleCompute a b c).frac) <<< 16)
        else
          (w.regs (VRFCR / 4) &&& 0xFFFF0000) |||
            (((doScaleCompute a b c).mant <<< 12) ||| (doScaleCompute a b c).frac)) %
          2 ^ 32
      else w.regs i := by
  funext i
  cases vert <;>
    simp [doScale, writeReg, readReg, VRFCR, VRFSR] <;>
    rcases Decidable.em (i = 22) with h22 | h22 <;>
    rcases Decidable.em (i = 21) with h21 | h21 <;>
    simp [h22, h21]

/-- C10 counterexample: at `size_in = 2, size_out = 1000` the general
upscale path is reached (no special repeat case), the fraction
`4096*1/1001 = 4` has nonzero low 3 bits, masking gives 0, and the
unsigned `frac -= 8` wraps: the final fraction is `2^32 - 8`, far outside
`[0, 4096)`. -/
theorem upscale_frac_wrap_cex :
    0 < 2 ∧ 2 < 1000 ∧
    GstShIo.repOf (GstShIo.upscaleMFR 2 1000).frac = 0 ∧
    4096 * (2 - 1) / (1000 + 1) % 4096 % 8 ≠ 0 ∧
    (GstShIo.doScaleCompute 2 1000 1000).frac = 2 ^ 32 - 8 ∧
    ¬ (GstShIo.doScaleCompute 2 1000 1000).frac < 4096 := by
  refine ⟨by decide, by decide, by decide, by decide, ?_, ?_⟩ <;> decide

/-- C10 (amended): on the general upscale path, when the pre-mask
fraction `(4096*(size_in-1)/(size_out+1)) % 4096` has nonzero low 3 bits
AND is at least 8 (so the masked fraction is non-zero), the unsigned
subtraction does not wrap: the final fraction is the masked fraction
minus 8 and lies in `[0, 4096)`, fitting the 12-bit fraction slot.
(The original claim, without the `≥ 8` guard, is refuted by
`upscale_frac_wrap_cex`.) -/
theorem upscale_frac_in_range (size_in size_out crop_out : Nat)
    (h1 : 0 < size_in) (h2 : size_in < size_out)
    (hgen : repOf (upscaleMFR size_in size_out).frac = 0)
    (hlow : 4096 * (size_in - 1) / (size_out + 1) % 4096 % 8 ≠ 0)
    (hge8 : 8 ≤ 4096 * (size_in - 1) / (size_out + 1) % 4096) :
    (doScaleCompute size_in size_out crop_out).frac =
      4096 * (size_in - 1) / (size_out + 1) % 4096 / 8 * 8 - 8 ∧
    (doScaleCompute size_in size_out crop_out).frac < 4096 := by
  have hup : ¬(size_out > size_in ∧ (upscaleMFR size_in size_out).rep ≠ 0) := by
    rintro ⟨_, hb⟩
    exact hb hgen
  rw [doScaleCompute_of_ne _ _ _ (Nat.ne_of_lt h2), if_neg hup, generalMFR_eq,
    if_pos hlow, if_pos h2]
  have h4096 : 4096 * (size_in - 1) / (size_out + 1) % 4096 < 4096 :=
    Nat.mod_lt _ (by norm_num)
  have h32 : (2 : Nat) ^ 32 = 4294967296 := by norm_num
  dsimp only
  rw [h32]
  omega

/-- Witness for C10 (amended) at `size_in = 719, size_out = 1280`:
fraction `4096*718/1281 % 4096 = 2295`, masked 2288, final 2280. -/
theorem upscale_frac_in_range_witness :
    0 < 719 ∧ 719 < 1280 ∧
    GstShIo.repOf (GstShIo.upscaleMFR 719 1280).frac = 0 ∧
    4096 * (719 - 1) / (1280 + 1) % 4096 % 8 ≠ 0 ∧
    8 ≤ 4096 * (719 - 1) / (1280 + 1) % 4096 ∧
    ((GstShIo.doScaleCompute 719 1280 1280).frac =
      4096 * (719 - 1) / (1280 + 1) % 4096 / 8 * 8 - 8 ∧
    (GstShIo.doScaleCompute 719 1280 1280).frac < 4096) :=
  ⟨by decide, by decide, by decide, by decide, by decide,
    upscale_frac_in_range 719 1280 1280 (by decide) (by decide) (by decide)
      (by decide) (by decide)⟩

/-- C5: cropping clamp.  With `pos_x` already aligned (a multiple of 4,
below `2^32` and within the maximum output extent), the aligned position
is `pos_x` itself, the cropped output width equals `dst_w` when
`dst_w + pos_x ≤ dst_max_w` and `dst_max_w - pos_x` otherwise, never
exceeding `dst_max_w - pos_x` (symmetrically for the height axis), and
the destination address is adjusted by
`pos_x * (bpp/8) + pos_y * dst_stride`. -/
theorem setupVeu_cropping_clamp
    (dst_w dst_h pos_x pos_y dst_max_w dst_max_h dst_stride dst_addr bpp : Nat)
    (hx4 : 4 ∣ pos_x) (hx32 : pos_x < 2 ^ 32)
    (hxb : pos_x ≤ dst_max_w) (hyb : pos_y ≤ dst_max_h) :
    alignPosX pos_x = pos_x ∧
    croppedExtent dst_w pos_x dst_max_w =
      (if dst_w + pos_x ≤ dst_max_w then dst_w else dst_max_w - pos_x) ∧
    croppedExtent dst_w pos_x dst_max_w ≤ dst_max_w - pos_x ∧
    croppedExtent dst_h pos_y dst_max_h =
      (if dst_h + pos_y ≤ dst_max_h then dst_h else dst_max_h - pos_y) ∧
    croppedExtent dst_h pos_y dst_max_h ≤ dst_max_h - pos_y ∧
    adjustedDstAddr dst_addr pos_x pos_y dst_stride bpp =
      dst_addr + pos_x * (bpp / 8) + pos_y * dst_stride := by
  refine ⟨?_, ?_, ?_, ?_, ?_, rfl⟩
  · rw [alignPosX, and_mask2_eq _ hx32]
    omega
  · rw [croppedExtent]
    rcases Nat.lt_or_ge dst_max_w (dst_w + pos_x) with hlt | hge
    · rw [if_pos hlt, if_neg (by omega)]
    · rw [if_neg (by omega), if_pos (by omega)]
  · rw [croppedExtent]
    split <;> omega
  · rw [croppedExtent]
    rcases Nat.lt_or_ge dst_max_h (dst_h + pos_y) with hlt | hge
    · rw [if_pos hlt, if_neg (by omega)]
    · rw [if_neg (by omega), if_pos (by omega)]
  · rw [croppedExtent]
    split <;> omega

/-- Witness for C5 at the claim's concrete instance
`dst_w = 800, pos_x = 32, dst_max_w = 640`: cropped width `608`. -/
theorem setupVeu_cropping_clamp_witness :
    (4 ∣ 32) ∧ 32 < 2 ^ 32 ∧ 32 ≤ 640 ∧ 0 ≤ 480 ∧
    (GstShIo.alignPosX 32 = 32 ∧
    GstShIo.croppedExtent 800 32 640 =
      (if 800 + 32 ≤ 640 then 800 else 640 - 32) ∧
    GstShIo.croppedExtent 800 32 640 ≤ 640 - 32 ∧
    GstShIo.croppedExtent 600 0 480 =
      (if 600 + 0 ≤ 480 then 600 else 480 - 0) ∧
    GstShIo.croppedExtent 600 0 480 ≤ 480 - 0 ∧
    GstShIo.adjustedDstAddr 4096 32 0 1280 16 =
      4096 + 32 * (16 / 8) + 0 * 1280) ∧
    GstShIo.croppedExtent 800 32 640 = 608 :=
  ⟨by decide, by decide, by decide, by decide,
    setupVeu_cropping_clamp 800 600 32 0 640 480 1280 4096 16
      (by decide) (by decide) (by decide) (by decide), by decide⟩

/-- C9 counterexample: with all registers initially zero, the horizontal
call `do_scale(ump, 0, 2, 600, 100)` reaches the wrapping `frac -= 8`
(final fraction `2^32 - 8`), and the value OR-ed into the low halfword of
the resize-scale register spills into its upper 16 bits: the upper
halfword of `VRFCR` changes from 0 to 0xFFFF. -/
theorem doScale_axis_isolation_cex :
    (doScale ⟨fun _ => 0, []⟩ false 2 600 100).1.regs (VRFCR / 4) / 2 ^ 16 ≠
      (⟨fun _ => 0, []⟩ : VeuRegs).regs (VRFCR / 4) / 2 ^ 16 := by decide

/-- C9 (amended): frame effect of `do_scale`.  A call writes no register
other than resize-scale (`VRFCR`) and resize-clip (`VRFSR`).  A vertical
call modifies only the upper 16 bits of those two registers
(unconditionally).  A horizontal call modifies only the low 16 bits
PROVIDED the two packed halfword values `(mant << 12) | frac` and
`(rep << 12) | crop_out` fit in 16 bits (the original unconditional claim
is refuted by `doScale_axis_isolation_cex`, where the wrapped fraction
overflows the halfword).  Consequently a horizontal-then-vertical pair
preserves the low halfwords programmed by the horizontal call. -/
theorem doScale_axis_isolation (w : VeuRegs) (vertical : Bool)
    (size_in size_out crop_out size_in2 size_out2 crop_out2 : Nat)
    (hw : ∀ i, w.regs i < 2 ^ 32) :
    (∀ i, i ≠ VRFCR / 4 → i ≠ VRFSR / 4 →
      (doScale w vertical size_in size_out crop_out).1.regs i = w.regs i) ∧
    (vertical = true →
      (doScale w vertical size_in size_out crop_out).1.regs (VRFCR / 4) % 2 ^ 16 =
        w.regs (VRFCR / 4) % 2 ^ 16 ∧
      (doScale w vertical size_in size_out crop_out).1.regs (VRFSR / 4) % 2 ^ 16 =
        w.regs (VRFSR / 4) % 2 ^ 16) ∧
    (vertical = false →
      ((doScaleCompute size_in size_out crop_out).mant <<< 12) |||
          (doScaleCompute size_in size_out crop_out).frac < 2 ^ 16 →
      ((doScaleCompute size_in size_out crop_out).rep <<< 12) ||| crop_out < 2 ^ 16 →
      (doScale w vertical size_in size_out crop_out).1.regs (VRFCR / 4) / 2 ^ 16 =
        w.regs (VRFCR / 4) / 2 ^ 16 ∧
      (doScale w vertical size_in size_out crop_out).1.regs (VRFSR / 4) / 2 ^ 16 =
        w.regs (VRFSR / 4) / 2 ^ 16) ∧
    ((doScale (doScale w false size_in size_out crop_out).1 true
        size_in2 size_out2 crop_out2).1.regs (VRFCR / 4) % 2 ^ 16 =
      (doScale w false size_in size_out crop_out).1.regs (VRFCR / 4) % 2 ^ 16 ∧
    (doScale (doScale w false size_in size_out crop_out).1 true
        size_in2 size_out2 crop_out2).1.regs (VRFSR / 4) % 2 ^ 16 =
      (doScale w false size_in size_out crop_out).1.regs (VRFSR / 4) % 2 ^ 16) := by
  refine ⟨?_, ?_, ?_, ?_, ?_⟩
  · intro i h1 h2
    rw [doScale_regs]
    dsimp only
    rw [if_neg h2, if_neg h1]
  · intro hv
    subst hv
    constructor
    · rw [doScale_regs]
      dsimp only
      rw [if_neg (by decide : ¬((VRFCR : Nat) / 4 = VRFSR / 4)), if_pos rfl,
        if_pos rfl]
      exact store_low16 _ _
    · rw [doScale_regs]
      dsimp only
      rw [if_pos rfl, if_pos rfl]
      exact store_low16 _ _
  · intro hv hfit1 hfit2
    subst hv
    constructor
    · rw [doScale_regs]
      dsimp only
      rw [if_neg (by decide : ¬((VRFCR : Nat) / 4 = VRFSR / 4)), if_pos rfl,
        if_neg (by decide : ¬(false = true))]
      exact store_high16 _ _ (hw _) hfit1
    · rw [doScale_regs]
      dsimp only
      rw [if_pos rfl, if_neg (by decide : ¬(false = true))]
      exact store_high16 _ _ (hw _) hfit2
  · rw [doScale_regs]
    dsimp only
    rw [if_neg (by decide : ¬((VRFCR : Nat) / 4 = VRFSR / 4)), if_pos rfl,
      if_pos rfl]
    exact store_low16 _ _
  · rw [doScale_regs]
    dsimp only
    rw [if_pos rfl, if_pos rfl]
    exact store_low16 _ _

/-- Witness for C9 (amended) at an all-zero initial state with a
horizontal 720 → 640 downscale (both packed halfwords fit). -/
theorem doScale_axis_isolation_witness :
    (∀ i, (⟨fun _ => 0, []⟩ : VeuRegs).regs i < 2 ^ 32) ∧
    ((∀ i, i ≠ VRFCR / 4 → i ≠ VRFSR / 4 →
      (doScale ⟨fun _ => 0, []⟩ false 720 640 640).1.regs i =
        (⟨fun _ => 0, []⟩ : VeuRegs).regs i) ∧
    (false = true →
      (doScale ⟨fun _ => 0, []⟩ false 720 640 640).1.regs (VRFCR / 4) % 2 ^ 16 =
        (⟨fun _ => 0, []⟩ : VeuRegs).regs (VRFCR / 4) % 2 ^ 16 ∧
      (doScale ⟨fun _ => 0, []⟩ false 720 640 640).1.regs (VRFSR / 4) % 2 ^ 16 =
        (⟨fun _ => 0, []⟩ : VeuRegs).regs (VRFSR / 4) % 2 ^ 16) ∧
    (false = false →
      ((doScaleCompute 720 640 640).mant <<< 12) |||
          (doScaleCompute 720 640 640).frac < 2 ^ 16 →
      ((doScaleCompute 720 640 640).rep <<< 12) ||| 640 < 2 ^ 16 →
      (doScale ⟨fun _ => 0, []⟩ false 720 640 640).1.regs (VRFCR / 4) / 2 ^ 16 =
        (⟨fun _ => 0, []⟩ : VeuRegs).regs (VRFCR / 4) / 2 ^ 16 ∧
      (doScale ⟨fun _ => 0, []⟩ false 720 640 640).1.regs (VRFSR / 4) / 2 ^ 16 =
        (⟨fun _ => 0, []⟩ : VeuRegs).regs (VRFSR / 4) / 2 ^ 16) ∧
    ((doScale (doScale ⟨fun _ => 0, []⟩ false 720 640 640).1 true
        480 480 480).1.regs (VRFCR / 4) % 2 ^ 16 =
      (doScale ⟨fun _ => 0, []⟩ false 720 640 640).1.regs (VRFCR / 4) % 2 ^ 16 ∧
    (doScale (doScale ⟨fun _ => 0, []⟩ false 720 640 640).1 true
        480 480 480).1.regs (VRFSR / 4) % 2 ^ 16 =
      (doScale ⟨fun _ => 0, []⟩ false 720 640 640).1.regs (VRFSR / 4) % 2 ^ 16)) :=
  ⟨fun _ => by show (0 : Nat) < 2 ^ 32; norm_num,
    doScale_axis_isolation ⟨fun _ => 0, []⟩ false 720 640 640 480 480 480
      (fun _ => by show (0 : Nat) < 2 ^ 32; norm_num)⟩

/-! ### Helper lemmas for the `setup_veu` write trace -/

theorem setupVeu_trace_map (w : VeuRegs)
    (src_w src_h dst_w dst_h dst_stride pos_x pos_y dst_max_w dst_max_h
      dst_addr bpp : Nat) (w' : VeuRegs)
    (h : setupVeu w "VEU2H" src_w src_h dst_w dst_h dst_stride pos_x pos_y
      dst_max_w dst_max_h dst_addr bpp = some w') :
    w'.trace.map Prod.fst = w.trace.map Prod.fst ++
      [VRFCR, VRFSR, VRFCR, VRFSR, VESWR, VESSR, VBSSR, VEDWR, VDAYR, VDACR,
       VSWPR, VTRCR, VMCR00, VMCR01, VMCR02, VMCR10, VMCR11, VMCR12, VMCR20,
       VMCR21, VMCR22, VCOFFR, VEIER] := by
  rw [setupVeu, if_neg (by simp)] at h
  have h2 := Option.some.inj h
  subst h2
  simp [doScale, writeReg]

theorem setupVeu_mem (w : VeuRegs)
    (src_w src_h dst_w dst_h dst_stride pos_x pos_y dst_max_w dst_max_h
      dst_addr bpp : Nat) (w' : VeuRegs)
    (h : setupVeu w "VEU2H" src_w src_h dst_w dst_h dst_stride pos_x pos_y
      dst_max_w dst_max_h dst_addr bpp = some w') :
    (VESWR, srcStride src_w % 2 ^ 32) ∈ w'.trace ∧
    (VEIER, 1) ∈ w'.trace ∧
    (VSWPR, 0x67) ∈ w'.trace ∧
    (VTRCR, ((6 <<< 16) ||| 2 ||| 4) % 2 ^ 32) ∈ w'.trace ∧
    (VCOFFR, 0x00800010) ∈ w'.trace := by
  rw [setupVeu, if_neg (by simp)] at h
  have h2 := Option.some.inj h
  subst h2
  refine ⟨?_, ?_, ?_, ?_, ?_⟩ <;> simp [doScale, writeReg]

/-- C4: adjusted source extent and alignment invariants.  `do_scale`
returns `((size_in * crop_out) / size_out + 3) & ~3`, always a multiple of
4; a successful `setup_veu` call programs the source stride
`(src_w + 15) & ~15`, always a multiple of 16; and the effective `pos_x`
after alignment is always a multiple of 4. -/
theorem setupVeu_alignment_invariants (w : VeuRegs) (vertical : Bool)
    (size_in size_out crop_out : Nat)
    (src_w src_h dst_w dst_h dst_stride pos_x pos_y dst_max_w dst_max_h
      dst_addr bpp : Nat) (w' : VeuRegs) (hso : 0 < size_out)
    (h : setupVeu w "VEU2H" src_w src_h dst_w dst_h dst_stride pos_x pos_y
      dst_max_w dst_max_h dst_addr bpp = some w') :
    (doScale w vertical size_in size_out crop_out).2 =
      (size_in * crop_out / size_out + 3) &&& 0xFFFFFFFC ∧
    4 ∣ (doScale w vertical size_in size_out crop_out).2 ∧
    srcStride src_w = (src_w + 15) &&& 0xFFFFFFF0 ∧
    16 ∣ srcStride src_w ∧
    (VESWR, srcStride src_w) ∈ w'.trace ∧
    4 ∣ alignPosX pos_x := by
  have hs : srcStride src_w % 2 ^ 32 = srcStride src_w :=
    Nat.mod_eq_of_lt (lt_of_le_of_lt Nat.and_le_right (by norm_num))
  refine ⟨rfl, dvd4_and_maskC _, rfl, dvd16_and_maskF0 _, ?_, dvd4_and_maskC _⟩
  have hm := (setupVeu_mem w src_w src_h dst_w dst_h dst_stride pos_x pos_y
    dst_max_w dst_max_h dst_addr bpp w' h).1
  rwa [hs] at hm

/-- Witness for C4 on a concrete successful `setup_veu` call
(identity 720×480 geometry, 16 bpp). -/
theorem setupVeu_alignment_invariants_witness :
    0 < 480 ∧
    ((doScale ⟨fun _ => 0, []⟩ false 720 480 480).2 =
      (720 * 480 / 480 + 3) &&& 0xFFFFFFFC ∧
    4 ∣ (doScale ⟨fun _ => 0, []⟩ false 720 480 480).2 ∧
    srcStride 720 = (720 + 15) &&& 0xFFFFFFF0 ∧
    16 ∣ srcStride 720 ∧
    (VESWR, srcStride 720) ∈
      ((setupVeu ⟨fun _ => 0, []⟩ "VEU2H" 720 480 720 480 1440 0 0 720 480 0
        16).getD ⟨fun _ => 0, []⟩).trace ∧
    4 ∣ alignPosX 0) :=
  ⟨by decide,
    setupVeu_alignment_invariants ⟨fun _ => 0, []⟩ false 720 480 480
      720 480 720 480 1440 0 0 720 480 0 16
      ((setupVeu ⟨fun _ => 0, []⟩ "VEU2H" 720 480 720 480 1440 0 0 720 480 0
        16).getD ⟨fun _ => 0, []⟩) (by decide) rfl⟩

/-- C8 counterexample: a concrete successful `setup_veu` call writes
exactly the offsets listed (the two `do_scale` register pairs, source
stride/size, bundle mode, destination stride/addresses, swap, transform
control, the nine color-matrix coefficients, the color-conversion offset,
and the interrupt mask) — and the color-conversion clip register `VCBR`
(0x228) is NOT among them, contradicting the claim that the clip register
is programmed. -/
theorem setupVeu_register_set_cex :
    Option.map (fun w' => w'.trace.map Prod.fst)
      (GstShIo.setupVeu ⟨fun _ => 0, []⟩ "VEU2H" 720 480 720 480 1440 0 0 720
        480 0 16) =
      some [GstShIo.VRFCR, GstShIo.VRFSR, GstShIo.VRFCR, GstShIo.VRFSR,
        GstShIo.VESWR, GstShIo.VESSR, GstShIo.VBSSR, GstShIo.VEDWR,
        GstShIo.VDAYR, GstShIo.VDACR, GstShIo.VSWPR, GstShIo.VTRCR,
        GstShIo.VMCR00, GstShIo.VMCR01, GstShIo.VMCR02, GstShIo.VMCR10,
        GstShIo.VMCR11, GstShIo.VMCR12, GstShIo.VMCR20, GstShIo.VMCR21,
        GstShIo.VMCR22, GstShIo.VCOFFR, GstShIo.VEIER] ∧
    GstShIo.VCBR ∉ [GstShIo.VRFCR, GstShIo.VRFSR, GstShIo.VRFCR, GstShIo.VRFSR,
        GstShIo.VESWR, GstShIo.VESSR, GstShIo.VBSSR, GstShIo.VEDWR,
        GstShIo.VDAYR, GstShIo.VDACR, GstShIo.VSWPR, GstShIo.VTRCR,
        GstShIo.VMCR00, GstShIo.VMCR01, GstShIo.VMCR02, GstShIo.VMCR10,
        GstShIo.VMCR11, GstShIo.VMCR12, GstShIo.VMCR20, GstShIo.VMCR21,
        GstShIo.VMCR22, GstShIo.VCOFFR, GstShIo.VEIER] := by
  constructor <;> decide

/-- C8 (amended): every successful `setup_veu` call (device-name guard
passed) appends to the write trace exactly the offsets of the two
`do_scale` register pairs, source stride, packed source size, bundle
mode, destination stride, destination Y and C addresses, the fixed swap
register, the fixed transform-control value, the nine color-conversion
matrix coefficients, the color-conversion offset register, and the
interrupt-mask register (written with 1) — the color-conversion clip
register `VCBR` is not among the programmed offsets. -/
theorem setupVeu_register_set (w : VeuRegs) (devName : String)
    (src_w src_h dst_w dst_h dst_stride pos_x pos_y dst_max_w dst_max_h
      dst_addr bpp : Nat) (w' : VeuRegs)
    (h : setupVeu w devName src_w src_h dst_w dst_h dst_stride pos_x pos_y
      dst_max_w dst_max_h dst_addr bpp = some w') :
    w'.trace.map Prod.fst = w.trace.map Prod.fst ++
      [VRFCR, VRFSR, VRFCR, VRFSR, VESWR, VESSR, VBSSR, VEDWR, VDAYR, VDACR,
       VSWPR, VTRCR, VMCR00, VMCR01, VMCR02, VMCR10, VMCR11, VMCR12, VMCR20,
       VMCR21, VMCR22, VCOFFR, VEIER] ∧
    VCBR ∉ [VRFCR, VRFSR, VRFCR, VRFSR, VESWR, VESSR, VBSSR, VEDWR, VDAYR,
      VDACR, VSWPR, VTRCR, VMCR00, VMCR01, VMCR02, VMCR10, VMCR11, VMCR12,
      VMCR20, VMCR21, VMCR22, VCOFFR, VEIER] ∧
    (VEIER, 1) ∈ w'.trace ∧
    (VSWPR, 0x67) ∈ w'.trace ∧
    (VTRCR, ((6 <<< 16) ||| 2 ||| 4) % 2 ^ 32) ∈ w'.trace ∧
    (VCOFFR, 0x00800010) ∈ w'.trace := by
  by_cases hn : devName = "VEU2H"
  · subst hn
    have hm := setupVeu_mem w src_w src_h dst_w dst_h dst_stride pos_x pos_y
      dst_max_w dst_max_h dst_addr bpp w' h
    exact ⟨setupVeu_trace_map w src_w src_h dst_w dst_h dst_stride pos_x pos_y
      dst_max_w dst_max_h dst_addr bpp w' h, by decide, hm.2.1, hm.2.2.1,
      hm.2.2.2.1, hm.2.2.2.2⟩
  · rw [setupVeu, if_pos hn] at h
    exact absurd h (by simp)

/-- Witness for C8 (amended) on the same concrete call. -/
theorem setupVeu_register_set_witness :
    (((setupVeu ⟨fun _ => 0, []⟩ "VEU2H" 640 480 640 480 1280 0 0 640 480 0
        16).getD ⟨fun _ => 0, []⟩).trace.map Prod.fst =
      (⟨fun _ => 0, []⟩ : VeuRegs).trace.map Prod.fst ++
      [VRFCR, VRFSR, VRFCR, VRFSR, VESWR, VESSR, VBSSR, VEDWR, VDAYR, VDACR,
       VSWPR, VTRCR, VMCR00, VMCR01, VMCR02, VMCR10, VMCR11, VMCR12, VMCR20,
       VMCR21, VMCR22, VCOFFR, VEIER] ∧
    VCBR ∉ [VRFCR, VRFSR, VRFCR, VRFSR, VESWR, VESSR, VBSSR, VEDWR, VDAYR,
      VDACR, VSWPR, VTRCR, VMCR00, VMCR01, VMCR02, VMCR10, VMCR11, VMCR12,
      VMCR20, VMCR21, VMCR22, VCOFFR, VEIER] ∧
    (VEIER, 1) ∈
      ((setupVeu ⟨fun _ => 0, []⟩ "VEU2H" 640 480 640 480 1280 0 0 640 480 0
        16).getD ⟨fun _ => 0, []⟩).trace ∧
    (VSWPR, 0x67) ∈
      ((setupVeu ⟨fun _ => 0, []⟩ "VEU2H" 640 480 640 480 1280 0 0 640 480 0
        16).getD ⟨fun _ => 0, []⟩).trace ∧
    (VTRCR, ((6 <<< 16) ||| 2 ||| 4) % 2 ^ 32) ∈
      ((setupVeu ⟨fun _ => 0, []⟩ "VEU2H" 640 480 640 480 1280 0 0 640 480 0
        16).getD ⟨fun _ => 0, []⟩).trace ∧
    (VCOFFR, 0x00800010) ∈
      ((setupVeu ⟨fun _ => 0, []⟩ "VEU2H" 640 480 640 480 1280 0 0 640 480 0
        16).getD ⟨fun _ => 0, []⟩).trace) :=
  setupVeu_register_set ⟨fun _ => 0, []⟩ "VEU2H" 640 480 640 480 1280 0 0 640
    480 0 16
    ((setupVeu ⟨fun _ => 0, []⟩ "VEU2H" 640 480 640 480 1280 0 0 640 480 0
      16).getD ⟨fun _ => 0, []⟩) rfl

/-! ### Helper lemmas for the device locator -/

theorem truncAt_append_name (s : String) :
    truncAt (s ++ "/name") ((s ++ "/name").length - 5) = s := by
  obtain ⟨data⟩ := s
  show String.mk ((data ++ "/name".data).take ((data ++ "/name".data).length - 5)) =
    String.mk data
  rw [List.length_append]
  show String.mk ((data ++ "/name".data).take (data.length + 5 - 5)) = String.mk data
  rw [Nat.add_sub_cancel, List.take_left' rfl]

theorem uioNameFile_trunc (n : Nat) :
    truncAt (uioNameFile n) ((uioNameFile n).length - 5) =
      "/sys/class/uio/uio" ++ toString n :=
  truncAt_append_name ("/sys/class/uio/uio" ++ toString n)

theorem locateUioAux_not_found (name : String) (openable : Nat → Bool) :
    ∀ (files : List String) (k : Nat),
      (∀ i (h : i < files.length),
        ¬ List.isPrefixOf name.data (files.get ⟨i, h⟩).data) →
      locateUioAux name openable files k = .error .DeviceNotFound := by
  intro files
  induction files with
  | nil => intro k _; rfl
  | cons buf rest ih =>
    intro k hall
    rw [locateUioAux, if_neg (by simpa using hall 0 (by simp))]
    exact ih (k + 1) (fun i h => hall (i + 1) (by simpa using h))

theorem locateUioAux_found (name : String) (openable : Nat → Bool) :
    ∀ (files : List String) (k : Nat) (i : Nat) (h : i < files.length),
      List.isPrefixOf name.data (files.get ⟨i, h⟩).data →
      (∀ j (hj : j < i),
        ¬ List.isPrefixOf name.data (files.get ⟨j, Nat.lt_trans hj h⟩).data) →
      locateUioAux name openable files k =
        if openable (k + i) then .ok (mkUioDev (k + i) (files.get ⟨i, h⟩))
        else .error .OpenFailed := by
  intro files
  induction files with
  | nil => intro k i h; exact absurd h (by simp)
  | cons buf rest ih =>
    intro k i h hpre hfirst
    match i with
    | 0 =>
      rw [locateUioAux, if_pos (by simpa using hpre)]
      simpa using rfl
    | i + 1 =>
      have h0 : ¬ List.isPrefixOf name.data buf.data := by
        simpa using hfirst 0 (Nat.succ_pos i)
      rw [locateUioAux, if_neg h0]
      have := ih (k + 1) i (by simpa using h) (by simpa using hpre)
        (fun j hj => by simpa using hfirst (j + 1) (by omega))
      rw [this, show k + 1 + i = k + (i + 1) by omega]
      simp

/-- C6: device discovery.  The locator examines `uio0, uio1, ...` in
order: if no name file read in range matches (the first failing read ends
the scan), it fails with `DeviceNotFound`; at the first index `i` whose
name-file contents have the requested name as a character prefix it stops
— returning a handle with sysfs prefix `/sys/class/uio/uio{i}` (the
trailing `/name` stripped) and device path `/dev/uio{i}` when
`/dev/uio{i}` opens, and failing with `OpenFailed` otherwise.  On name
files `["OTHER", "VEU2H", "OTHER2"]` with requested name `VEU2H` it
selects `uio1`. -/
theorem locate_uio_device_spec (name : String) (files : List String)
    (openable : Nat → Bool) :
    ((∀ i (h : i < files.length),
        ¬ List.isPrefixOf name.data (files.get ⟨i, h⟩).data) →
      locateUioDevice name files openable = .error .DeviceNotFound) ∧
    (∀ i (h : i < files.length),
      List.isPrefixOf name.data (files.get ⟨i, h⟩).data →
      (∀ j (hj : j < i),
        ¬ List.isPrefixOf name.data (files.get ⟨j, Nat.lt_trans hj h⟩).data) →
      locateUioDevice name files openable =
        if openable i then
          .ok { name := stripNewline (files.get ⟨i, h⟩),
                path := "/sys/class/uio/uio" ++ toString i,
                devPath := "/dev/uio" ++ toString i }
        else .error .OpenFailed) ∧
    locateUioDevice "VEU2H" ["OTHER\n", "VEU2H\n", "OTHER2\n"] (fun _ => true) =
      .ok { name := "VEU2H", path := "/sys/class/uio/uio1",
            devPath := "/dev/uio1" } := by
  refine ⟨locateUioAux_not_found name openable files 0, ?_, by rfl⟩
  intro i h hpre hfirst
  have hfound := locateUioAux_found name openable files 0 i h hpre hfirst
  rw [locateUioDevice, hfound, Nat.zero_add]
  cases hob : openable i <;> simp [hob, mkUioDev, uioNameFile_trunc, uioDevFile]

/-- Witness for C6 at the claim's concrete scenario, selecting `uio1`. -/
theorem locate_uio_device_spec_witness :
    GstShIo.locateUioDevice "VEU2H" ["OTHER\n", "VEU2H\n", "OTHER2\n"]
      (fun _ => true) =
      (if (fun _ => true : Nat → Bool) 1 then
        Except.ok
          ⟨GstShIo.stripNewline
              ((["OTHER\n", "VEU2H\n", "OTHER2\n"] : List String).get
                ⟨1, by decide⟩),
            "/sys/class/uio/uio" ++ toString 1, "/dev/uio" ++ toString 1⟩
      else Except.error GstShIo.LocateErr.OpenFailed) :=
  (locate_uio_device_spec "VEU2H" ["OTHER\n", "VEU2H\n", "OTHER2\n"]
      (fun _ => true)).2.1 1 (by decide) (by decide)
    (fun j hj => by
      have hj0 : j = 0 := by omega
      subst hj0
      show ¬ List.isPrefixOf ("VEU2H" : String).data ("OTHER\n" : String).data = true
      decide)

/-- C7: region mapping.  `setup_uio_map` reads
`{sysfs-prefix}/maps/map{nr}/addr` and `.../size`, parses both with the
base-prefix-sensitive `strtoul(buf, NULL, 0)`, and requests a mapping of
exactly `size` bytes at file offset `nr * page_size`; it fails exactly
when either sysfs read fails (open failure or empty line) or the mapping
call returns the failure sentinel. -/
theorem setup_uio_map_spec (env : UioEnv) (path : String) (nr : Nat) :
    (∀ s1 s2,
      env.readFile (path ++ "/maps/map" ++ toString nr ++ "/addr") = some s1 →
      s1.length ≠ 0 →
      env.readFile (path ++ "/maps/map" ++ toString nr ++ "/size") = some s2 →
      s2.length ≠ 0 →
      setupUioMap env path nr =
        Option.map
          (fun p => { address := strtoul0 s1, size := strtoul0 s2, iomem := p })
          (env.mmap (strtoul0 s2) (nr * env.pageSize))) ∧
    (env.readFile (path ++ "/maps/map" ++ toString nr ++ "/addr") = none →
      setupUioMap env path nr = none) ∧
    (∀ s1,
      env.readFile (path ++ "/maps/map" ++ toString nr ++ "/addr") = some s1 →
      s1.length = 0 → setupUioMap env path nr = none) ∧
    (env.readFile (path ++ "/maps/map" ++ toString nr ++ "/size") = none →
      setupUioMap env path nr = none) ∧
    (∀ s2,
      env.readFile (path ++ "/maps/map" ++ toString nr ++ "/size") = some s2 →
      s2.length = 0 → setupUioMap env path nr = none) := by
  refine ⟨?_, ?_, ?_, ?_, ?_⟩
  · intro s1 s2 h1 hn1 h2 hn2
    cases hm : env.mmap (strtoul0 s2) (nr * env.pageSize) <;>
      simp [setupUioMap, h1, hn1, h2, hn2, hm]
  · intro h1
    simp [setupUioMap, h1]
  · intro s1 h1 hn1
    simp [setupUioMap, h1, hn1]
  · intro h2
    rcases h1 : env.readFile (path ++ "/maps/map" ++ toString nr ++ "/addr")
      with _ | s1
    · simp [setupUioMap, h1]
    · by_cases hn1 : s1.length = 0 <;> simp [setupUioMap, h1, hn1, h2]
  · intro s2 h2 hn2
    rcases h1 : env.readFile (path ++ "/maps/map" ++ toString nr ++ "/addr")
      with _ | s1
    · simp [setupUioMap, h1]
    · by_cases hn1 : s1.length = 0 <;> simp [setupUioMap, h1, hn1, h2, hn2]

/-- Witness for C7 on a concrete environment: region 1 with page size
4096 and region size 0x2000 = 8192 is mapped at offset
`1 * 4096 = 4096` — the page-indexed offset, not `0` and not the region
size 8192 — and the hexadecimal sysfs contents are parsed via their `0x`
prefix. -/
theorem setup_uio_map_spec_witness :
    GstShIo.setupUioMap
      { readFile := fun s =>
          if s = "/sys/class/uio/uio1/maps/map1/addr" then some "0xfe920000\n"
          else if s = "/sys/class/uio/uio1/maps/map1/size" then some "0x2000\n"
          else none,
        mmap := fun len off =>
          if len = 8192 ∧ off = 4096 then some 777 else none,
        pageSize := 4096 } "/sys/class/uio/uio1" 1 =
      Option.map
        (fun p => { address := GstShIo.strtoul0 "0xfe920000\n",
                    size := GstShIo.strtoul0 "0x2000\n", iomem := p })
        ((fun len off => if len = 8192 ∧ off = 4096 then some 777 else none)
          (GstShIo.strtoul0 "0x2000\n") (1 * 4096)) ∧
    GstShIo.setupUioMap
      { readFile := fun s =>
          if s = "/sys/class/uio/uio1/maps/map1/addr" then some "0xfe920000\n"
          else if s = "/sys/class/uio/uio1/maps/map1/size" then some "0x2000\n"
          else none,
        mmap := fun len off =>
          if len = 8192 ∧ off = 4096 then some 777 else none,
        pageSize := 4096 } "/sys/class/uio/uio1" 1 =
      some { address := 4270981120, size := 8192, iomem := 777 } ∧
    GstShIo.strtoul0 "0x2000\n" = 8192 ∧ (1 * 4096 : Nat) = 4096 ∧
    (4096 : Nat) ≠ 8192 ∧ (4096 : Nat) ≠ 0 :=
  ⟨(setup_uio_map_spec
      { readFile := fun s =>
          if s = "/sys/class/uio/uio1/maps/map1/addr" then some "0xfe920000\n"
          else if s = "/sys/class/uio/uio1/maps/map1/size" then some "0x2000\n"
          else none,
        mmap := fun len off =>
          if len = 8192 ∧ off = 4096 then some 777 else none,
        pageSize := 4096 } "/sys/class/uio/uio1" 1).1 "0xfe920000\n" "0x2000\n"
      (by decide) (by decide) (by decide) (by decide),
    by decide, by decide, by decide, by decide, by decide⟩

end GstShIo
